import Mathlib

/-!
Verification of the terragrunt-builder parser module (package `parser`,
file parser.go, final revision).  The Go code is embedded shallowly:

* Go strings are lists of characters (`GoString`).
* `hcl.Diagnostics` is a list of `Diagnostic` records carrying the
  severity used by `Diagnostics.HasErrors` and the message string that
  `diag.Error()` yields.
* The external HCL collaborators (the hclsyntax grammar, `Body.Content`,
  `gohcl.DecodeExpression`, and the file system) are not part of this
  repository; their outcomes are modelled as input data carried by the
  structures below, at the exact interface type the Go code consumes.
-/

namespace TerragruntBuilder

/-- Go strings, modelled as character lists so that the case folding and
substring operations of package `strings` are directly executable. -/
abbrev GoString := List Char

/-- Shorthand to build a `GoString` from a Lean string literal. -/
def goStr (s : String) : GoString := s.toList

/-- Diagnostic severity.  `hcl.DiagError` makes `Diagnostics.HasErrors`
true; every other severity (warnings) does not. -/
inductive Severity where
  | error
  | warning
deriving DecidableEq, Repr

/-- One `hcl.Diagnostic`: the severity inspected by `HasErrors` and the
message string produced by the `Error()` method. -/
structure Diagnostic where
  severity : Severity
  message : GoString
deriving DecidableEq, Repr

/-- `hcl.Diagnostics`: a slice of diagnostics.  The `nil` slice is the
empty list; the Go code only ever compares these slices against `nil`
after building them by `append`, so `nil` and the empty list coincide. -/
abbrev Diagnostics := List Diagnostic

/-- `hcl.Diagnostics.HasErrors`: true when some diagnostic has error
severity. -/
def hasErrors (diags : Diagnostics) : Bool :=
  diags.any (fun d => d.severity = Severity.error)

/-- `strings.ToLower`, restricted to the simple character mapping. -/
def goToLower (s : GoString) : GoString := s.map Char.toLower

/-- `strings.Contains hay needle`: `needle` occurs as a contiguous
substring of `hay` (the empty needle always occurs). -/
def goContains (hay needle : GoString) : Bool :=
  match hay with
  | [] => needle.isEmpty
  | c :: rest => needle.isPrefixOf (c :: rest) || goContains rest needle

/-- The test the inner loop of `checkDiagnostics` performs for one
diagnostic: some allow-list entry occurs case-insensitively in the
message. -/
def isIgnored (allowedErrors : List GoString) (d : Diagnostic) : Bool :=
  allowedErrors.any (fun a => goContains (goToLower d.message) (goToLower a))

/-- `checkDiagnostics` from parser.go: with an empty allow-list the
input is returned unchanged; otherwise, when the input has an
error-severity diagnostic, every diagnostic whose lowered message does
not contain a lowered allow-list entry is retained; when the input has
no error-severity diagnostic the nil slice is returned. -/
def checkDiagnostics (diags : Diagnostics) (allowedErrors : List GoString) :
    Diagnostics :=
  if allowedErrors.isEmpty then diags
  else if hasErrors diags then
    diags.filter (fun d => !(isIgnored allowedErrors d))
  else []

/-- One `hcl.AttributeSchema` entry. -/
structure AttributeSchema where
  name : GoString
deriving DecidableEq, Repr

/-- One `hcl.BlockHeaderSchema` entry: a block type together with its
label names (the label arity the matcher enforces). -/
structure BlockHeaderSchema where
  type : GoString
  labelNames : List GoString
deriving DecidableEq, Repr

/-- `hcl.BodySchema`: the declarative description of the block types and
attribute names of interest at one nesting level. -/
structure BodySchema where
  blocks : List BlockHeaderSchema
  attributes : List AttributeSchema
deriving DecidableEq, Repr

/-- `importantBlocksSchema` from parser.go: `variable` and `output`
blocks, each with the single label name `name`. -/
def importantBlocksSchema : BodySchema :=
  { blocks :=
      [ { type := goStr "variable", labelNames := [goStr "name"] },
        { type := goStr "output", labelNames := [goStr "name"] } ],
    attributes := [] }

/-- `variableBlockSchema` from parser.go: attributes `type` and
`default`. -/
def variableBlockSchema : BodySchema :=
  { blocks := [],
    attributes := [ { name := goStr "type" }, { name := goStr "default" } ] }

/-- `outputBlockSchema` from parser.go: attributes `type` and `value`. -/
def outputBlockSchema : BodySchema :=
  { blocks := [],
    attributes := [ { name := goStr "type" }, { name := goStr "value" } ] }

/-- One attribute as it comes back from the external
`Body.Content(schema)` call, together with the outcome of the external
`gohcl.DecodeExpression` on its expression: the diagnostics that call
returns and the string it writes into its target. -/
structure Attr where
  name : GoString
  decodeDiags : Diagnostics
  decodeValue : GoString
deriving DecidableEq, Repr

/-- The body of one matched block, described by what the external
`Body.Content` call returns for the attribute schema the dispatch routes
this block to (`variableBlockSchema` for `variable` blocks,
`outputBlockSchema` for `output` blocks): the diagnostics of the match
and the map of matched attributes. -/
structure BlockBody where
  contentDiags : Diagnostics
  attributes : List Attr
deriving DecidableEq, Repr

/-- One `hcl.Block` returned by the top-level `Body.Content` call: its
type string, its labels, and its body. -/
structure Block where
  type : GoString
  labels : List GoString
  body : BlockBody
deriving DecidableEq, Repr

/-- Lookup in the `blockContent.Attributes` map, keyed by attribute
name. -/
def lookupAttr (attrs : List Attr) (name : GoString) : Option Attr :=
  attrs.find? (fun a => a.name = name)

/-- The `block.Labels[0]` access performed while building a record; Go
would panic on an empty label slice, here totalised with the empty
string (the in-bounds theorem below shows the fallback is never used
for schema-matched blocks). -/
def goLabels0 (b : Block) : GoString := b.labels.headD []

/-- `Variable` from parser.go. -/
structure Variable where
  Name : GoString
  Default : GoString
deriving DecidableEq, Repr

/-- `Output` from parser.go. -/
structure Output where
  Name : GoString
  Value : GoString
deriving DecidableEq, Repr

/-- `Terraform` from parser.go.  The Go slices hold pointers, which may
in principle be `nil`, hence the `Option` elements. -/
structure Terraform where
  Variables : List (Option Variable)
  Outputs : List (Option Output)
deriving DecidableEq, Repr

/-- The allow-list used for the top-level schema match. -/
def blockAllowList : List GoString := [goStr "unsupported block"]

/-- The allow-list used for the per-block attribute schema match. -/
def attrAllowList : List GoString :=
  [goStr "unsupported attribute", goStr "unsupported argument"]

/-- `processVariable` from parser.go: on a non-`variable` block yields
nothing; otherwise matches the body against `variableBlockSchema`,
filters the diagnostics through the attribute allow-list, and on
success builds the record from the first label and the decoded
`default` attribute (strict, unfiltered diagnostics check on the
decode). -/
def processVariable (block : Block) : Option Variable × Diagnostics :=
  if block.type ≠ goStr "variable" then (none, [])
  else
    let diagErr := checkDiagnostics block.body.contentDiags attrAllowList
    if diagErr ≠ [] then (none, diagErr)
    else
      match lookupAttr block.body.attributes (goStr "default") with
      | some defaultAttr =>
        if defaultAttr.decodeDiags ≠ [] then
          (none, checkDiagnostics defaultAttr.decodeDiags [])
        else (some ⟨goLabels0 block, defaultAttr.decodeValue⟩, [])
      | none => (some ⟨goLabels0 block, []⟩, [])

/-- `processOutput` from parser.go, the mirror image of
`processVariable` with `outputBlockSchema` and the `value` attribute. -/
def processOutput (block : Block) : Option Output × Diagnostics :=
  if block.type ≠ goStr "output" then (none, [])
  else
    let diagErr := checkDiagnostics block.body.contentDiags attrAllowList
    if diagErr ≠ [] then (none, diagErr)
    else
      match lookupAttr block.body.attributes (goStr "value") with
      | some valueAttr =>
        if valueAttr.decodeDiags ≠ [] then
          (none, checkDiagnostics valueAttr.decodeDiags [])
        else (some ⟨goLabels0 block, valueAttr.decodeValue⟩, [])
      | none => (some ⟨goLabels0 block, []⟩, [])

/-- The body of the loop of `processTerraform`: dispatch one block on
its type, collect the per-block failure or append the produced record. -/
def processTerraformStep (acc : Terraform × Diagnostics) (block : Block) :
    Terraform × Diagnostics :=
  if block.type = goStr "variable" then
    match processVariable block with
    | (v, []) =>
      ({ acc.1 with Variables := acc.1.Variables ++ [v] }, acc.2)
    | (_, diagErr) => (acc.1, acc.2 ++ diagErr)
  else if block.type = goStr "output" then
    match processOutput block with
    | (o, []) =>
      ({ acc.1 with Outputs := acc.1.Outputs ++ [o] }, acc.2)
    | (_, diagErr) => (acc.1, acc.2 ++ diagErr)
  else acc

/-- `processTerraform` from parser.go: fold the dispatch loop over the
matched blocks, starting from the zero `Terraform` and nil
diagnostics. -/
def processTerraform (blocks : List Block) : Terraform × Diagnostics :=
  blocks.foldl processTerraformStep (⟨[], []⟩, [])

/-- The structured document of one file, as the external calls the File
Processor makes on it answer: the diagnostics of the top-level
`Body.Content(importantBlocksSchema)` match, and the blocks that match
returns. -/
structure HclFile where
  contentDiags : Diagnostics
  blocks : List Block
deriving DecidableEq, Repr

/-- The error type of the Go functions: an I/O error string, a
diagnostics value used as an error, or a `fmt.Errorf` string. -/
inductive GoError where
  | ioErr (msg : GoString)
  | diagErr (diags : Diagnostics)
  | strErr (msg : GoString)
deriving DecidableEq, Repr

/-- One file on disk, described by the outcome of the external calls
made by `loadFile`: either `os.ReadFile` fails, or the bytes reach
`hclsyntax.ParseConfig`, which yields a raw document together with its
parse diagnostics. -/
structure RawFile where
  readResult : Except GoString (HclFile × Diagnostics)
deriving Repr

/-- `loadFile` from parser.go: propagate a read failure; fail when the
parse diagnostics contain an error; otherwise return the document. -/
def loadFile (f : RawFile) : Except GoError HclFile :=
  match f.readResult with
  | Except.error e => Except.error (GoError.ioErr e)
  | Except.ok (rawHcl, parseDiags) =>
    if hasErrors parseDiags then Except.error (GoError.diagErr parseDiags)
    else Except.ok rawHcl

/-- `processSchema` from parser.go, applied as the code applies it (with
`importantBlocksSchema`): filter the content diagnostics through the
unsupported-block allow-list and fail when any diagnostic survives. -/
def processSchema (rawHcl : HclFile) : Except Diagnostics (List Block) :=
  let diagErrs := checkDiagnostics rawHcl.contentDiags blockAllowList
  if diagErrs ≠ [] then Except.error diagErrs
  else Except.ok rawHcl.blocks

/-- `processFile` from parser.go: load, match the top-level schema,
dispatch the blocks, and discard everything when the accumulated
per-block diagnostics contain an error. -/
def processFile (f : RawFile) : Terraform × Option GoError :=
  match loadFile f with
  | Except.error err => (⟨[], []⟩, some err)
  | Except.ok rawHcl =>
    match processSchema rawHcl with
    | Except.error diagErrs => (⟨[], []⟩, some (GoError.diagErr diagErrs))
    | Except.ok body =>
      let (terraform, diagErrs) := processTerraform body
      if hasErrors diagErrs then (⟨[], []⟩, some (GoError.diagErr diagErrs))
      else (terraform, none)

/-- One directory entry as `ioutil.ReadDir` reports it: its name and
the file the joined child path denotes. -/
structure DirEntry where
  name : GoString
  content : RawFile
deriving Repr

/-- `strings.HasSuffix(name, ".tf")`. -/
def isTf (name : GoString) : Bool := (goStr ".tf").isSuffixOf name

/-- The `fmt.Errorf` message used when a directory holds no matching
file. -/
def noTerraformMsg (filePath : GoString) : GoString :=
  goStr "no Terraform files found in directory " ++ filePath

/-- The directory loop of `Parse`: walk the entries, skipping names
without the `.tf` suffix, aborting on the first failing file, and
appending each successful file record set to the accumulator; at the
end the untouched `noTerraform` flag turns into the no-files error. -/
def parseDir (filePath : GoString) :
    List DirEntry → Terraform → Bool → Terraform × Option GoError
  | [], terraform, noTerraform =>
    if noTerraform then (⟨[], []⟩, some (GoError.strErr (noTerraformMsg filePath)))
    else (terraform, none)
  | file :: rest, terraform, _noTerraform =>
    if isTf file.name then
      match processFile file.content with
      | (_, some err) => (⟨[], []⟩, some err)
      | (childTerraform, none) =>
        parseDir filePath rest
          ⟨terraform.Variables ++ childTerraform.Variables,
            terraform.Outputs ++ childTerraform.Outputs⟩ false
    else parseDir filePath rest terraform _noTerraform

/-- The outcome of the `os.Stat` call of `Parse`, together with what the
path then denotes: a stat failure, a directory (whose `ioutil.ReadDir`
either fails or lists entries), or a plain file. -/
inductive StatResult where
  | statErr (msg : GoString)
  | dirNode (listing : Except GoString (List DirEntry))
  | fileNode (f : RawFile)
deriving Repr

/-- `Parse` from parser.go, the public entry point.  A stat failure is
propagated; for a directory the `ReadDir` error is discarded (the entry
list defaults to nil) and the loop above runs with an empty accumulator
and the `noTerraform` flag set; a plain file delegates to
`processFile`. -/
def Parse (filePath : GoString) (stat : StatResult) : Terraform × Option GoError :=
  match stat with
  | StatResult.statErr msg => (⟨[], []⟩, some (GoError.ioErr msg))
  | StatResult.dirNode listing =>
    let files := match listing with
      | Except.error _ => []
      | Except.ok fs => fs
    parseDir filePath files ⟨[], []⟩ true
  | StatResult.fileNode f => processFile f

/-- The record the dispatch loop of `processTerraform` appends to the
variable slice for one block: present exactly when the block has type
`variable` and `processVariable` reports no diagnostics. -/
def keptVariable (b : Block) : Option (Option Variable) :=
  if b.type = goStr "variable" then
    match processVariable b with
    | (v, []) => some v
    | _ => none
  else none

/-- The record the dispatch loop appends to the output slice for one
block. -/
def keptOutput (b : Block) : Option (Option Output) :=
  if b.type = goStr "output" then
    match processOutput b with
    | (o, []) => some o
    | _ => none
  else none

/-- The diagnostics one block contributes to the accumulated failure
list of `processTerraform`. -/
def blockFailDiags (b : Block) : Diagnostics :=
  if b.type = goStr "variable" then (processVariable b).2
  else if b.type = goStr "output" then (processOutput b).2
  else []

/-- The default value `processVariable` stores for a block: the decoded
string when a `default` attribute was matched, the zero string
otherwise. -/
def decodedDefault (b : Block) : GoString :=
  match lookupAttr b.body.attributes (goStr "default") with
  | some a => a.decodeValue
  | none => []

/-- The variable records a successful directory walk accumulates, in
listing order of the matching entries. -/
def dirVariables (files : List DirEntry) : List (Option Variable) :=
  (files.filter (fun f => isTf f.name)).flatMap
    (fun f => (processFile f.content).1.Variables)

/-- The output records a successful directory walk accumulates. -/
def dirOutputs (files : List DirEntry) : List (Option Output) :=
  (files.filter (fun f => isTf f.name)).flatMap
    (fun f => (processFile f.content).1.Outputs)

/-- Modelled from the spec: the guarantee of the external schema matcher
(hcl `Body.Content`, an external collaborator whose code is not part of
this repository).  A block it returns for a schema has a type declared
in the schema and exactly as many labels as the declared label names —
the spec states the schema guarantees exactly one label exists for the
block types declared here. -/
def blockMatchesSchema (schema : BodySchema) (b : Block) : Prop :=
  ∃ bh ∈ schema.blocks, bh.type = b.type ∧ b.labels.length = bh.labelNames.length

/-- The document the external grammar produces for the source text
consisting of the single block `variable "x" ... default = "hello"`:
one `variable` block labelled `x`, whose body matches
`variableBlockSchema` with no diagnostics and whose `default`
expression decodes to `hello`. -/
def roundTripHcl : HclFile :=
  { contentDiags := [],
    blocks :=
      [ { type := goStr "variable", labels := [goStr "x"],
          body := { contentDiags := [],
                    attributes :=
                      [ { name := goStr "default", decodeDiags := [],
                          decodeValue := goStr "hello" } ] } } ] }

/-- A file whose bytes read successfully and parse to `roundTripHcl`. -/
def roundTripFile : RawFile := { readResult := Except.ok (roundTripHcl, []) }

/-- A `variable` block whose `default` decode yields a single
warning-severity diagnostic, so the extractor signals a per-block
failure whose diagnostics carry no error. -/
def warnDecodeBlock : Block :=
  { type := goStr "variable", labels := [goStr "a"],
    body := { contentDiags := [],
              attributes :=
                [ { name := goStr "default",
                    decodeDiags :=
                      [ { severity := Severity.warning, message := goStr "w" } ],
                    decodeValue := [] } ] } }

/-- A well-formed `variable` block labelled `b` with default `v`. -/
def cleanVariableBlock : Block :=
  { type := goStr "variable", labels := [goStr "b"],
    body := { contentDiags := [],
              attributes :=
                [ { name := goStr "default", decodeDiags := [],
                    decodeValue := goStr "v" } ] } }

/-- A document holding the warning-failing block followed by the clean
block. -/
def warnDecodeHcl : HclFile :=
  { contentDiags := [], blocks := [warnDecodeBlock, cleanVariableBlock] }

/-- A file that loads to `warnDecodeHcl`. -/
def warnDecodeFile : RawFile := { readResult := Except.ok (warnDecodeHcl, []) }

/-- A `variable` block whose `default` decode fails with an
error-severity diagnostic. -/
def errDecodeBlock : Block :=
  { type := goStr "variable", labels := [goStr "a"],
    body := { contentDiags := [],
              attributes :=
                [ { name := goStr "default",
                    decodeDiags :=
                      [ { severity := Severity.error,
                          message := goStr "Unsuitable value type" } ],
                    decodeValue := [] } ] } }

/-- A document holding the error-failing block followed by the clean
block. -/
def errDecodeHcl : HclFile :=
  { contentDiags := [], blocks := [errDecodeBlock, cleanVariableBlock] }

/-- A file that loads to `errDecodeHcl`. -/
def errDecodeFile : RawFile := { readResult := Except.ok (errDecodeHcl, []) }

/-- A `variable` block whose body carries, besides a clean `default`
attribute, an Unsupported argument diagnostic of error severity, as the
external matcher reports for an attribute such as `sensitive = true`
that the narrow schema does not declare. -/
def extraAttrBlock : Block :=
  { type := goStr "variable", labels := [goStr "s"],
    body := { contentDiags :=
                [ { severity := Severity.error,
                    message := goStr "main.tf:2,3-19: Unsupported argument; An argument named sensitive is not expected here." } ],
              attributes :=
                [ { name := goStr "default", decodeDiags := [],
                    decodeValue := goStr "hi" } ] } }

/-- A directory entry whose name carries the `.tf` suffix and whose
content is the round-trip file. -/
def cleanEntry : DirEntry := { name := goStr "a.tf", content := roundTripFile }

/-- A directory entry whose file fails to load with a read error. -/
def failingEntry : DirEntry :=
  { name := goStr "b.tf",
    content := { readResult := Except.error (goStr "boom") } }

/-- A directory entry whose name lacks the `.tf` suffix. -/
def otherEntry : DirEntry :=
  { name := goStr "README.md",
    content := { readResult := Except.error (goStr "unread") } }

/-- A second clean `.tf` entry, holding one output block. -/
def outputEntry : DirEntry :=
  { name := goStr "c.tf",
    content :=
      { readResult := Except.ok
          ({ contentDiags := [],
             blocks :=
               [ { type := goStr "output", labels := [goStr "o"],
                   body := { contentDiags := [],
                             attributes :=
                               [ { name := goStr "value", decodeDiags := [],
                                   decodeValue := goStr "w" } ] } } ] }, []) } }

lemma var_ne_out : goStr "variable" ≠ goStr "output" := by decide

lemma out_ne_var : goStr "output" ≠ goStr "variable" := by decide

lemma foldl_step_spec (blocks : List Block) :
    ∀ tf dg, List.foldl processTerraformStep (tf, dg) blocks =
      (⟨tf.Variables ++ blocks.filterMap keptVariable,
        tf.Outputs ++ blocks.filterMap keptOutput⟩,
        dg ++ blocks.flatMap blockFailDiags) := by
  induction blocks with
  | nil => intro tf dg; simp
  | cons b rest ih =>
    intro tf dg
    by_cases hv : b.type = goStr "variable"
    · rcases hpv : processVariable b with ⟨v, d⟩
      cases d with
      | nil =>
        simp [processTerraformStep, keptVariable, keptOutput, blockFailDiags,
          hv, hpv, ih, var_ne_out, List.append_assoc]
      | cons d0 ds =>
        simp [processTerraformStep, keptVariable, keptOutput, blockFailDiags,
          hv, hpv, ih, var_ne_out, List.append_assoc]
    · by_cases ho : b.type = goStr "output"
      · rcases hpo : processOutput b with ⟨o, d⟩
        cases d with
        | nil =>
          simp [processTerraformStep, keptVariable, keptOutput, blockFailDiags,
            hv, ho, hpo, ih, out_ne_var, List.append_assoc]
        | cons d0 ds =>
          simp [processTerraformStep, keptVariable, keptOutput, blockFailDiags,
            hv, ho, hpo, ih, out_ne_var, List.append_assoc]
      · simp [processTerraformStep, keptVariable, keptOutput, blockFailDiags,
          hv, ho, ih]

lemma processTerraform_spec (blocks : List Block) :
    processTerraform blocks =
      (⟨blocks.filterMap keptVariable, blocks.filterMap keptOutput⟩,
        blocks.flatMap blockFailDiags) := by
  have h := foldl_step_spec blocks ⟨[], []⟩ []
  simpa [processTerraform] using h


lemma parseDir_clean (p : GoString) (files : List DirEntry)
    (h : ∀ f ∈ files, isTf f.name = true → (processFile f.content).2 = none) :
    ∀ tf, parseDir p files tf false =
      (⟨tf.Variables ++ dirVariables files, tf.Outputs ++ dirOutputs files⟩,
        none) := by
  induction files with
  | nil => intro tf; simp [parseDir, dirVariables, dirOutputs]
  | cons f rest ih =>
    intro tf
    by_cases hf : isTf f.name
    · have hok := h f (List.mem_cons_self f rest) hf
      rcases hpf : processFile f.content with ⟨ctf, err⟩
      have herr : err = none := by rw [hpf] at hok; exact hok
      subst herr
      have ihrest := ih (fun g hg hgt => h g (List.mem_cons_of_mem f hg) hgt)
      simp [parseDir, hf, hpf, ihrest, dirVariables, dirOutputs,
        List.filter_cons, List.append_assoc]
    · have ihrest := ih (fun g hg hgt => h g (List.mem_cons_of_mem f hg) hgt)
      simp [parseDir, hf, ihrest, dirVariables, dirOutputs, List.filter_cons]

lemma parseDir_start (p : GoString) (files : List DirEntry)
    (h : ∀ f ∈ files, isTf f.name = true → (processFile f.content).2 = none)
    (hex : ∃ f ∈ files, isTf f.name = true) :
    parseDir p files ⟨[], []⟩ true =
      (⟨dirVariables files, dirOutputs files⟩, none) := by
  induction files with
  | nil => simp at hex
  | cons f rest ih =>
    by_cases hf : isTf f.name
    · have hok := h f (List.mem_cons_self f rest) hf
      rcases hpf : processFile f.content with ⟨ctf, err⟩
      have herr : err = none := by rw [hpf] at hok; exact hok
      subst herr
      have hrest := parseDir_clean p rest
        (fun g hg hgt => h g (List.mem_cons_of_mem f hg) hgt)
        ⟨[] ++ ctf.Variables, [] ++ ctf.Outputs⟩
      simp only [List.nil_append] at hrest
      simp [parseDir, hf, hpf, hrest, dirVariables, dirOutputs, List.filter_cons]
    · have hex2 : ∃ g ∈ rest, isTf g.name = true := by
        rcases hex with ⟨g, hg, hgt⟩
        rcases List.mem_cons.mp hg with hgf | hgr
        · subst hgf; exact absurd hgt hf
        · exact ⟨g, hgr, hgt⟩
      have ihrest := ih (fun g hg hgt => h g (List.mem_cons_of_mem f hg) hgt) hex2
      simp [parseDir, hf, ihrest, dirVariables, dirOutputs, List.filter_cons]

lemma parseDir_noMatch (p : GoString) (files : List DirEntry)
    (h : ∀ f ∈ files, isTf f.name = false) :
    ∀ tf, parseDir p files tf true =
      (⟨[], []⟩, some (GoError.strErr (noTerraformMsg p))) := by
  induction files with
  | nil => intro tf; simp [parseDir]
  | cons f rest ih =>
    intro tf
    have hf := h f (List.mem_cons_self f rest)
    simp [parseDir, hf, ih (fun g hg => h g (List.mem_cons_of_mem f hg))]

lemma parseDir_fail (p : GoString) (e : DirEntry) (post : List DirEntry)
    (err : GoError) (htf : isTf e.name = true)
    (herr : (processFile e.content).2 = some err) :
    ∀ pre, (∀ f ∈ pre, isTf f.name = true → (processFile f.content).2 = none) →
    ∀ tf b, parseDir p (pre ++ e :: post) tf b = (⟨[], []⟩, some err) := by
  intro pre
  induction pre with
  | nil =>
    intro _ tf b
    rcases hpf : processFile e.content with ⟨ctf, e2⟩
    have he2 : e2 = some err := by rw [hpf] at herr; exact herr
    subst he2
    simp [parseDir, htf, hpf]
  | cons f rest ih =>
    intro h tf b
    by_cases hf : isTf f.name
    · have hok := h f (List.mem_cons_self f rest) hf
      rcases hpf : processFile f.content with ⟨ctf, e2⟩
      have he2 : e2 = none := by rw [hpf] at hok; exact hok
      subst he2
      simp [parseDir, hf, hpf,
        ih (fun g hg hgt => h g (List.mem_cons_of_mem f hg) hgt)]
    · simp [parseDir, hf,
        ih (fun g hg hgt => h g (List.mem_cons_of_mem f hg) hgt)]

/-- C1 (amended): for every diagnostics list holding at least one
error-severity diagnostic and every non-empty allow-list, the Diagnostic
Filter returns exactly those diagnostics whose message does not contain,
case-insensitively, any allow-list entry; for a single error-severity
diagnostic the output is empty exactly when its message contains some
entry. -/
theorem checkDiagnostics_retains_unmatched (ds : Diagnostics)
    (A : List GoString) (d : Diagnostic) (hA : A ≠ [])
    (hErr : hasErrors ds = true) (hd : d.severity = Severity.error) :
    checkDiagnostics ds A = ds.filter (fun x => !(isIgnored A x)) ∧
    ((checkDiagnostics [d] A = []) ↔ isIgnored A d = true) := by
  obtain ⟨a, A2, rfl⟩ : ∃ a A2, A = a :: A2 := by
    cases A with
    | nil => exact absurd rfl hA
    | cons a A2 => exact ⟨a, A2, rfl⟩
  constructor
  · simp [checkDiagnostics, hErr]
  · have h1 : hasErrors [d] = true := by simp [hasErrors, hd]
    simp only [checkDiagnostics, List.isEmpty_cons, Bool.false_eq_true,
      if_false, h1, if_true, List.filter]
    cases hig : isIgnored (a :: A2) d <;> simp

/-- C1 witness: the amended statement at a concrete error diagnostic and
allow-list. -/
theorem checkDiagnostics_retains_unmatched_witness :
    checkDiagnostics [⟨Severity.error, goStr "boom"⟩] [goStr "allowed"] =
      [⟨Severity.error, goStr "boom"⟩].filter
        (fun x => !(isIgnored [goStr "allowed"] x)) ∧
    ((checkDiagnostics [(⟨Severity.error, goStr "this is Allowed here"⟩ : Diagnostic)]
        [goStr "allowed"] = []) ↔
      isIgnored [goStr "allowed"] ⟨Severity.error, goStr "this is Allowed here"⟩ = true) :=
  checkDiagnostics_retains_unmatched [⟨Severity.error, goStr "boom"⟩]
    [goStr "allowed"] ⟨Severity.error, goStr "this is Allowed here"⟩
    (by decide) (by decide) rfl

/-- C1 counterexample: a warning-only diagnostics list with a non-empty
allow-list is emptied even though the message matches no entry, so the
claim as stated fails. -/
theorem checkDiagnostics_drops_unmatched_warning_cex :
    checkDiagnostics [⟨Severity.warning, goStr "bad thing"⟩] [goStr "other"] = [] ∧
    isIgnored [goStr "other"] ⟨Severity.warning, goStr "bad thing"⟩ = false := by
  exact ⟨rfl, by decide⟩

/-- C5: with an empty allow-list the Diagnostic Filter is the identity,
whatever the diagnostics contents or severities. -/
theorem checkDiagnostics_nil_allowList_identity (ds : Diagnostics) :
    checkDiagnostics ds [] = ds := rfl

/-- C10: when the directory listing fails, Parse behaves exactly as on
an empty directory and reports the no-files error instead of the
listing failure. -/
theorem parse_listing_error_as_empty_dir (p msg : GoString) :
    Parse p (StatResult.dirNode (Except.error msg)) =
      Parse p (StatResult.dirNode (Except.ok [])) ∧
    Parse p (StatResult.dirNode (Except.error msg)) =
      (⟨[], []⟩, some (GoError.strErr (noTerraformMsg p))) := ⟨rfl, rfl⟩

/-- C4: parsing the lone block variable x with default hello yields one
variable record, no outputs, and no error. -/
theorem parse_roundTrip_single_variable :
    Parse (goStr "main.tf") (StatResult.fileNode roundTripFile) =
      (⟨[some { Name := goStr "x", Default := goStr "hello" }], []⟩, none) := rfl

/-- C6: a directory whose entries carry no .tf suffix makes Parse return
the no-Terraform-files error, never an empty success. -/
theorem parse_dir_without_tf_files_errors (p : GoString)
    (files : List DirEntry) (h : ∀ f ∈ files, isTf f.name = false) :
    Parse p (StatResult.dirNode (Except.ok files)) =
      (⟨[], []⟩, some (GoError.strErr (noTerraformMsg p))) := by
  simpa [Parse] using parseDir_noMatch p files h ⟨[], []⟩

/-- C6 witness: a directory with one non-matching entry. -/
theorem parse_dir_without_tf_files_errors_witness :
    Parse (goStr "d") (StatResult.dirNode (Except.ok [otherEntry])) =
      (⟨[], []⟩, some (GoError.strErr (noTerraformMsg (goStr "d")))) :=
  parse_dir_without_tf_files_errors (goStr "d") [otherEntry] (by decide)

/-- C3: when a matching file fails and every earlier matching file
succeeded, Parse on the directory returns that file error with the
empty collection, discarding the earlier records. -/
theorem parse_aborts_on_first_failing_file (p : GoString)
    (pre post : List DirEntry) (e : DirEntry) (err : GoError)
    (hpre : ∀ f ∈ pre, isTf f.name = true → (processFile f.content).2 = none)
    (he : isTf e.name = true)
    (herr : (processFile e.content).2 = some err) :
    Parse p (StatResult.dirNode (Except.ok (pre ++ e :: post))) =
      (⟨[], []⟩, some err) := by
  simpa [Parse] using parseDir_fail p e post err he herr pre hpre ⟨[], []⟩ true

/-- C3 witness: one clean file followed by an unreadable file. -/
theorem parse_aborts_on_first_failing_file_witness :
    Parse (goStr "d") (StatResult.dirNode (Except.ok ([cleanEntry] ++ failingEntry :: []))) =
      (⟨[], []⟩, some (GoError.ioErr (goStr "boom"))) :=
  parse_aborts_on_first_failing_file (goStr "d") [cleanEntry] []
    failingEntry (GoError.ioErr (goStr "boom")) (by decide) (by decide) (by decide)

/-- C7: dispatch appends records in block order within a file, and a
successful directory Parse concatenates the per-file records of the
matching entries in listing order. -/
theorem records_keep_source_and_listing_order (blocks : List Block)
    (p : GoString) (files : List DirEntry)
    (hok : ∀ f ∈ files, isTf f.name = true → (processFile f.content).2 = none)
    (hex : ∃ f ∈ files, isTf f.name = true) :
    processTerraform blocks =
      (⟨blocks.filterMap keptVariable, blocks.filterMap keptOutput⟩,
        blocks.flatMap blockFailDiags) ∧
    Parse p (StatResult.dirNode (Except.ok files)) =
      (⟨dirVariables files, dirOutputs files⟩, none) :=
  ⟨processTerraform_spec blocks,
    by simpa [Parse] using parseDir_start p files hok hex⟩

/-- C7 witness: the ordering statement at two concrete matching
entries. -/
theorem records_keep_source_and_listing_order_witness :
    processTerraform roundTripHcl.blocks =
      (⟨roundTripHcl.blocks.filterMap keptVariable,
        roundTripHcl.blocks.filterMap keptOutput⟩,
        roundTripHcl.blocks.flatMap blockFailDiags) ∧
    Parse (goStr "d") (StatResult.dirNode (Except.ok [cleanEntry, outputEntry])) =
      (⟨dirVariables [cleanEntry, outputEntry],
        dirOutputs [cleanEntry, outputEntry]⟩, none) :=
  records_keep_source_and_listing_order roundTripHcl.blocks (goStr "d")
    [cleanEntry, outputEntry] (by decide) (by decide)

/-- C2 (amended): once the document loads and the top-level match
passes, a per-block failure carrying an error-severity diagnostic makes
processFile return the empty collection with the accumulated
diagnostics as its error, and when no block fails the collection holds
every matched block record; a warnings-only per-block failure escapes
this contract. -/
theorem processFile_all_or_nothing (f : RawFile) (hclf : HclFile)
    (hload : loadFile f = Except.ok hclf)
    (hschema : checkDiagnostics hclf.contentDiags blockAllowList = []) :
    ((∃ b ∈ hclf.blocks, hasErrors (blockFailDiags b) = true) →
      processFile f =
        (⟨[], []⟩, some (GoError.diagErr (hclf.blocks.flatMap blockFailDiags)))) ∧
    ((∀ b ∈ hclf.blocks, blockFailDiags b = []) →
      processFile f =
        (⟨hclf.blocks.filterMap keptVariable,
          hclf.blocks.filterMap keptOutput⟩, none)) := by
  have hps : processSchema hclf = Except.ok hclf.blocks := by
    simp [processSchema, hschema]
  constructor
  · rintro ⟨b, hb, hberr⟩
    have herrs : hasErrors (hclf.blocks.flatMap blockFailDiags) = true := by
      rw [hasErrors, List.any_eq_true]
      rw [hasErrors, List.any_eq_true] at hberr
      rcases hberr with ⟨d, hdmem, hds⟩
      exact ⟨d, List.mem_flatMap.mpr ⟨b, hb, hdmem⟩, hds⟩
    simp [processFile, hload, hps, processTerraform_spec, herrs]
  · intro hall
    have hnil : hclf.blocks.flatMap blockFailDiags = [] :=
      List.flatMap_eq_nil_iff.mpr hall
    simp [processFile, hload, hps, processTerraform_spec, hnil, hasErrors]

/-- C2 witness: a file with an error-severity decode failure yields the
empty collection and an error. -/
theorem processFile_all_or_nothing_witness :
    processFile errDecodeFile =
      (⟨[], []⟩,
        some (GoError.diagErr (errDecodeHcl.blocks.flatMap blockFailDiags))) :=
  (processFile_all_or_nothing errDecodeFile errDecodeHcl rfl rfl).1 (by decide)

/-- C2 counterexample: a variable block whose default decode fails with
a warnings-only diagnostic is a per-block failure, yet processFile
returns a non-empty partial collection (the failing block record is
missing) and no error, refuting the claim as stated. -/
theorem processFile_partial_result_cex :
    loadFile warnDecodeFile = Except.ok warnDecodeHcl ∧
    checkDiagnostics warnDecodeHcl.contentDiags blockAllowList = [] ∧
    warnDecodeBlock ∈ warnDecodeHcl.blocks ∧
    (processVariable warnDecodeBlock).2 ≠ [] ∧
    processFile warnDecodeFile =
      (⟨[some { Name := goStr "b", Default := goStr "v" }], []⟩, none) :=
  ⟨rfl, rfl, by decide, by decide, rfl⟩

/-- C8: a variable block whose extra attributes only raise allow-listed
diagnostics still yields a record built from the first label and the
decoded default, with no diagnostics. -/
theorem processVariable_tolerates_unrecognized_attrs (block : Block)
    (htype : block.type = goStr "variable")
    (hallow : ∀ d ∈ block.body.contentDiags, isIgnored attrAllowList d = true)
    (hdec : Option.all (fun a => a.decodeDiags.isEmpty)
      (lookupAttr block.body.attributes (goStr "default")) = true) :
    processVariable block =
      (some { Name := goLabels0 block, Default := decodedDefault block }, []) := by
  have hne : attrAllowList.isEmpty = false := rfl
  have hchk : checkDiagnostics block.body.contentDiags attrAllowList = [] := by
    by_cases herr : hasErrors block.body.contentDiags
    · simp only [checkDiagnostics, hne, Bool.false_eq_true, if_false, herr,
        if_true]
      rw [List.filter_eq_nil_iff]
      intro d hdm
      simp [hallow d hdm]
    · simp [checkDiagnostics, hne, herr]
  cases hlk : lookupAttr block.body.attributes (goStr "default") with
  | none => simp [processVariable, htype, hchk, hlk, decodedDefault]
  | some a =>
    rw [hlk] at hdec
    have ha : a.decodeDiags = [] := List.isEmpty_iff.mp (by simpa using hdec)
    simp [processVariable, htype, hchk, hlk, decodedDefault, ha]

/-- C8 witness: a variable block carrying an unsupported-argument
diagnostic for an extra attribute. -/
theorem processVariable_tolerates_unrecognized_attrs_witness :
    processVariable extraAttrBlock =
      (some { Name := goLabels0 extraAttrBlock,
              Default := decodedDefault extraAttrBlock }, []) :=
  processVariable_tolerates_unrecognized_attrs extraAttrBlock rfl
    (by decide) (by decide)

/-- C9: a block matching the top-level schema has a first label, so the
record construction access is in bounds and returns that label. -/
theorem schema_matched_label_access_in_bounds (b : Block)
    (h : blockMatchesSchema importantBlocksSchema b) :
    b.labels[0]? = some (goLabels0 b) := by
  rcases h with ⟨bh, hmem, _htype, hlen⟩
  have hbh : bh.labelNames.length = 1 := by
    simp only [importantBlocksSchema, List.mem_cons,
      List.mem_singleton, List.not_mem_nil, or_false] at hmem
    rcases hmem with rfl | rfl <;> rfl
  rw [hbh] at hlen
  cases hb : b.labels with
  | nil => rw [hb] at hlen; simp at hlen
  | cons x xs => simp [goLabels0, hb]

/-- C9 witness: the in-bounds access at a concrete schema-matched
block. -/
theorem schema_matched_label_access_in_bounds_witness :
    blockMatchesSchema importantBlocksSchema cleanVariableBlock ∧
    cleanVariableBlock.labels[0]? = some (goLabels0 cleanVariableBlock) :=
  have h : blockMatchesSchema importantBlocksSchema cleanVariableBlock :=
    ⟨{ type := goStr "variable", labelNames := [goStr "name"] },
      List.mem_cons_self _ _, rfl, rfl⟩
  ⟨h, schema_matched_label_access_in_bounds cleanVariableBlock h⟩

end TerragruntBuilder
